import Mathlib

/-!
Shallow embedding of the log4cplus filter core (`src/filter.cxx`):
the three-valued `FilterResult`, the seven filter variants with their
`decide` policies, the singly linked filter chain with `appendFilter`,
and the chain evaluator `checkFilter`.

Log levels are machine `int`s in the source; they are modelled as `Int`,
with `NOT_SET_LOG_LEVEL = -1` as in the log4cplus headers.  Strings
(`tstring`) are modelled as `String`; `std::string::find(needle) != npos`
is modelled by the executable substring search `containsSub` over the
character lists, proved equivalent to `List.IsInfix`.
-/

namespace Log4cplus

/-- The three-valued outcome of a filter decision: `DENY`, `NEUTRAL`, `ACCEPT`. -/
inductive FilterResult where
  | DENY
  | NEUTRAL
  | ACCEPT
deriving DecidableEq

/-- The log4cplus sentinel for an unset log level (`NOT_SET_LOG_LEVEL = -1`). -/
def NOT_SET_LOG_LEVEL : Int := -1

/-- The part of `InternalLoggingEvent` this core reads: the level, the message,
the nested diagnostic context string (`getNDC`), and the mapped diagnostic
context lookup (`getMDC`, returning the empty string when the key is absent). -/
structure InternalLoggingEvent where
  logLevel : Int
  message : String
  ndc : String
  mdc : String → String

/-- `beginsWith n h = true` iff the list `n` occurs at the front of `h`. -/
def beginsWith : List Char → List Char → Bool
  | [], _ => true
  | _ :: _, [] => false
  | a :: as, b :: bs => a == b && beginsWith as bs

/-- `containsSub n h = true` iff `n` occurs as a contiguous run inside `h`;
this is `std::string::find(n) != npos` on the character list of the string. -/
def containsSub (needle : List Char) : List Char → Bool
  | [] => needle.isEmpty
  | c :: rest => beginsWith needle (c :: rest) || containsSub needle rest

/-- `DenyAllFilter` carries no configuration. -/
structure DenyAllFilter where

/-- `DenyAllFilter::decide`: unconditionally `DENY`. -/
def DenyAllFilter.decide (_f : DenyAllFilter) (_event : InternalLoggingEvent) :
    FilterResult :=
  .DENY

/-- Configuration of `LogLevelMatchFilter`. -/
structure LogLevelMatchFilter where
  acceptOnMatch : Bool
  logLevelToMatch : Int

/-- `LogLevelMatchFilter::decide`. -/
def LogLevelMatchFilter.decide (f : LogLevelMatchFilter)
    (event : InternalLoggingEvent) : FilterResult :=
  if f.logLevelToMatch = NOT_SET_LOG_LEVEL then
    .NEUTRAL
  else if f.logLevelToMatch = event.logLevel then
    if f.acceptOnMatch then .ACCEPT else .DENY
  else
    .NEUTRAL

/-- Configuration of `LogLevelRangeFilter`. -/
structure LogLevelRangeFilter where
  acceptOnMatch : Bool
  logLevelMin : Int
  logLevelMax : Int

/-- `LogLevelRangeFilter::decide`. -/
def LogLevelRangeFilter.decide (f : LogLevelRangeFilter)
    (event : InternalLoggingEvent) : FilterResult :=
  let eventLogLevel := event.logLevel
  if f.logLevelMin ≠ NOT_SET_LOG_LEVEL ∧ eventLogLevel < f.logLevelMin then
    .DENY
  else if f.logLevelMax ≠ NOT_SET_LOG_LEVEL ∧ eventLogLevel > f.logLevelMax then
    .DENY
  else if f.acceptOnMatch then
    .ACCEPT
  else
    .NEUTRAL

/-- Configuration of `StringMatchFilter`. -/
structure StringMatchFilter where
  acceptOnMatch : Bool
  stringToMatch : String

/-- `StringMatchFilter::decide`. -/
def StringMatchFilter.decide (f : StringMatchFilter)
    (event : InternalLoggingEvent) : FilterResult :=
  let message := event.message
  if f.stringToMatch.isEmpty || message.isEmpty then
    .NEUTRAL
  else if containsSub f.stringToMatch.data message.data = false then
    .NEUTRAL
  else
    if f.acceptOnMatch then .ACCEPT else .DENY

/-- `FunctionFilter` wraps a caller-supplied predicate. -/
structure FunctionFilter where
  function : InternalLoggingEvent → FilterResult

/-- `FunctionFilter::decide`: invoke the stored predicate verbatim. -/
def FunctionFilter.decide (f : FunctionFilter)
    (event : InternalLoggingEvent) : FilterResult :=
  f.function event

/-- Configuration of `NDCMatchFilter`. -/
structure NDCMatchFilter where
  acceptOnMatch : Bool
  neutralOnEmpty : Bool
  ndcToMatch : String

/-- `NDCMatchFilter::decide`. -/
def NDCMatchFilter.decide (f : NDCMatchFilter)
    (event : InternalLoggingEvent) : FilterResult :=
  let ndcStr := event.ndc
  if f.neutralOnEmpty && (f.ndcToMatch.isEmpty || ndcStr.isEmpty) then
    .NEUTRAL
  else if ndcStr = f.ndcToMatch then
    if f.acceptOnMatch then .ACCEPT else .DENY
  else
    if f.acceptOnMatch then .DENY else .ACCEPT

/-- Configuration of `MDCMatchFilter`. -/
structure MDCMatchFilter where
  acceptOnMatch : Bool
  neutralOnEmpty : Bool
  mdcKeyToMatch : String
  mdcValueToMatch : String

/-- `MDCMatchFilter::decide`. -/
def MDCMatchFilter.decide (f : MDCMatchFilter)
    (event : InternalLoggingEvent) : FilterResult :=
  if f.neutralOnEmpty && (f.mdcKeyToMatch.isEmpty || f.mdcValueToMatch.isEmpty) then
    .NEUTRAL
  else
    let mdcStr := event.mdc f.mdcKeyToMatch
    if f.neutralOnEmpty && mdcStr.isEmpty then
      .NEUTRAL
    else if mdcStr = f.mdcValueToMatch then
      if f.acceptOnMatch then .ACCEPT else .DENY
    else
      if f.acceptOnMatch then .DENY else .ACCEPT

/-- The concrete filter variants (the `Filter` subclasses of the source). -/
inductive FilterKind where
  | denyAll (f : DenyAllFilter)
  | logLevelMatch (f : LogLevelMatchFilter)
  | logLevelRange (f : LogLevelRangeFilter)
  | stringMatch (f : StringMatchFilter)
  | functionFilter (f : FunctionFilter)
  | ndcMatch (f : NDCMatchFilter)
  | mdcMatch (f : MDCMatchFilter)

/-- Virtual dispatch of `decide` over the filter variants. -/
def FilterKind.decide : FilterKind → InternalLoggingEvent → FilterResult
  | .denyAll f, event => f.decide event
  | .logLevelMatch f, event => f.decide event
  | .logLevelRange f, event => f.decide event
  | .stringMatch f, event => f.decide event
  | .functionFilter f, event => f.decide event
  | .ndcMatch f, event => f.decide event
  | .mdcMatch f, event => f.decide event

/-- A filter chain node: its variant together with its `next` link.
`filterEnd k` is a node whose `next` pointer is null; `filterCons k n` is a
node whose `next` pointer holds the node `n`.  The type is inductive, so every
chain is finite and acyclic, as the data-model invariant requires. -/
inductive Filter where
  | filterEnd (kind : FilterKind)
  | filterCons (kind : FilterKind) (next : Filter)

/-- `Filter::appendFilter`: if this node's `next` is null, set it to the
argument (which may itself be null, `none`); otherwise delegate to
`next->appendFilter`. -/
def Filter.appendFilter : Filter → Option Filter → Filter
  | .filterEnd k, none => .filterEnd k
  | .filterEnd k, some f => .filterCons k f
  | .filterCons k n, f => .filterCons k (n.appendFilter f)

/-- One pass of the `checkFilter` loop starting from a non-null node: call the
node's `decide`; a non-`NEUTRAL` result returns immediately, otherwise move to
`next`, and a null `next` ends the loop with `ACCEPT`. -/
def checkFilterFrom : Filter → InternalLoggingEvent → FilterResult
  | .filterEnd k, event =>
    let result := k.decide event
    if result ≠ .NEUTRAL then result else .ACCEPT
  | .filterCons k n, event =>
    let result := k.decide event
    if result ≠ .NEUTRAL then result else checkFilterFrom n event

/-- `checkFilter`: evaluate the chain starting at a possibly-null head. -/
def checkFilter : Option Filter → InternalLoggingEvent → FilterResult
  | none, _ => .ACCEPT
  | some f, event => checkFilterFrom f event

/-- The variants of a chain in link order. -/
def Filter.toList : Filter → List FilterKind
  | .filterEnd k => [k]
  | .filterCons k n => k :: n.toList

/-- The variants reachable from a possibly-null head, in link order. -/
def chainToList : Option Filter → List FilterKind
  | none => []
  | some f => f.toList

/-- A sample event at a given level, with empty diagnostic contexts. -/
def evAt (l : Int) : InternalLoggingEvent :=
  ⟨l, "info log message", "", fun _ => ""⟩

/-- A sample event carrying a nested diagnostic context string. -/
def evNdc : InternalLoggingEvent :=
  ⟨20000, "msg", "ctx", fun _ => ""⟩

/-- A sample event whose mapped diagnostic context binds `"key"` to `"val"`. -/
def evMdc : InternalLoggingEvent :=
  ⟨20000, "msg", "", fun k => if k = "key" then "val" else ""⟩

theorem beginsWith_iff (n h : List Char) : beginsWith n h = true ↔ n <+: h := by
  induction n generalizing h with
  | nil => simp [beginsWith, List.nil_prefix]
  | cons a as ih =>
    cases h with
    | nil => simp [beginsWith, List.prefix_nil]
    | cons b bs =>
      simp [beginsWith, Bool.and_eq_true, beq_iff_eq, ih, List.cons_prefix_cons]

theorem containsSub_iff (n h : List Char) : containsSub n h = true ↔ n <:+: h := by
  induction h with
  | nil => simp [containsSub, List.infix_nil, List.isEmpty_iff]
  | cons c rest ih =>
    simp [containsSub, Bool.or_eq_true, beginsWith_iff, ih, List.infix_cons_iff]

theorem checkFilterFrom_eq_find (f : Filter) (event : InternalLoggingEvent) :
    checkFilterFrom f event =
      (match f.toList.find?
          (fun k => decide (FilterKind.decide k event ≠ FilterResult.NEUTRAL)) with
       | some k => k.decide event
       | none => FilterResult.ACCEPT) := by
  induction f with
  | filterEnd k =>
    by_cases h : k.decide event = FilterResult.NEUTRAL <;>
      simp [checkFilterFrom, Filter.toList, h]
  | filterCons k n ih =>
    by_cases h : k.decide event = FilterResult.NEUTRAL <;>
      simp [checkFilterFrom, Filter.toList, h, ih]

theorem checkFilterFrom_ne_neutral (f : Filter) (event : InternalLoggingEvent) :
    checkFilterFrom f event ≠ FilterResult.NEUTRAL := by
  induction f with
  | filterEnd k =>
    by_cases h : k.decide event = FilterResult.NEUTRAL <;>
      simp [checkFilterFrom, h]
  | filterCons k n ih =>
    by_cases h : k.decide event = FilterResult.NEUTRAL <;>
      simp [checkFilterFrom, h, ih]

/-- Claim C1: the chain evaluator `checkFilter` walks the nodes in link order
and returns the result of the first filter whose `decide` is not `NEUTRAL`
(stated via `List.find?` on the chain's variants in link order); it never
returns `NEUTRAL`; an absent head yields `ACCEPT`; and a chain on which every
filter returns `NEUTRAL` yields `ACCEPT`. -/
theorem checkFilter_spec (chain : Option Filter) (event : InternalLoggingEvent) :
    (checkFilter chain event =
      (match (chainToList chain).find?
          (fun k => decide (FilterKind.decide k event ≠ FilterResult.NEUTRAL)) with
       | some k => k.decide event
       | none => FilterResult.ACCEPT)) ∧
    checkFilter chain event ≠ FilterResult.NEUTRAL ∧
    checkFilter none event = FilterResult.ACCEPT ∧
    ((∀ k ∈ chainToList chain, FilterKind.decide k event = FilterResult.NEUTRAL) →
      checkFilter chain event = FilterResult.ACCEPT) := by
  cases chain with
  | none =>
    refine ⟨rfl, by simp [checkFilter], rfl, fun _ => rfl⟩
  | some f =>
    refine ⟨checkFilterFrom_eq_find f event, checkFilterFrom_ne_neutral f event,
      rfl, fun hall => ?_⟩
    have hall' : ∀ k ∈ f.toList, FilterKind.decide k event = FilterResult.NEUTRAL :=
      hall
    have hnone : (f.toList).find?
        (fun k => decide (FilterKind.decide k event ≠ FilterResult.NEUTRAL)) = none := by
      rw [List.find?_eq_none]
      intro k hk
      simp [hall' k hk]
    calc checkFilter (some f) event = checkFilterFrom f event := rfl
      _ = _ := checkFilterFrom_eq_find f event
      _ = FilterResult.ACCEPT := by rw [hnone]

/-- Claim C1 witness: a one-node chain whose only filter is neutral on the
event (an unset `LogLevelMatchFilter`) evaluates to `ACCEPT`. -/
theorem checkFilter_spec_witness :
    checkFilter (some (.filterEnd (.logLevelMatch ⟨true, -1⟩))) (evAt 20000) =
      FilterResult.ACCEPT := by
  have h := checkFilter_spec (some (.filterEnd (.logLevelMatch ⟨true, -1⟩))) (evAt 20000)
  refine h.2.2.2 ?_
  intro k hk
  simp only [chainToList, Filter.toList, List.mem_singleton] at hk
  subst hk
  rfl

/-- Claim C2: `DenyAllFilter::decide` returns `DENY` for every event and every
(trivial) configuration; and a chain `[neutral filter, DenyAll, f3]` evaluates
to `DENY` for every third filter `f3`, so `f3` is never consulted. -/
theorem denyAll_short_circuit (event : InternalLoggingEvent) (d : DenyAllFilter)
    (k1 k3 : FilterKind) (h : k1.decide event = FilterResult.NEUTRAL) :
    d.decide event = FilterResult.DENY ∧
    checkFilterFrom
      (.filterCons k1 (.filterCons (.denyAll d) (.filterEnd k3))) event =
      FilterResult.DENY := by
  refine ⟨rfl, ?_⟩
  have hd : (FilterKind.denyAll d).decide event = FilterResult.DENY := rfl
  simp [checkFilterFrom, h, hd]

/-- Claim C2 witness: with a neutral (unset) level-match filter first, then
`DenyAll`, then a level-match filter that would `ACCEPT` the event, the chain
evaluates to `DENY`. -/
theorem denyAll_short_circuit_witness :
    checkFilterFrom
      (.filterCons (.logLevelMatch ⟨true, -1⟩)
        (.filterCons (.denyAll ⟨⟩)
          (.filterEnd (.logLevelMatch ⟨true, 20000⟩)))) (evAt 20000) =
      FilterResult.DENY :=
  (denyAll_short_circuit (evAt 20000) ⟨⟩ (.logLevelMatch ⟨true, -1⟩)
    (.logLevelMatch ⟨true, 20000⟩) (by decide)).2

/-- Claim C3: `LogLevelMatchFilter::decide` is `NEUTRAL` when
`logLevelToMatch` is unset; otherwise, on an exact level match it is `ACCEPT`
if `acceptOnMatch` and `DENY` if not, and on a mismatch it is `NEUTRAL`. -/
theorem logLevelMatch_decide_spec (f : LogLevelMatchFilter)
    (event : InternalLoggingEvent) :
    (f.logLevelToMatch = NOT_SET_LOG_LEVEL →
      f.decide event = FilterResult.NEUTRAL) ∧
    (f.logLevelToMatch ≠ NOT_SET_LOG_LEVEL → event.logLevel = f.logLevelToMatch →
      f.decide event = if f.acceptOnMatch then FilterResult.ACCEPT
        else FilterResult.DENY) ∧
    (f.logLevelToMatch ≠ NOT_SET_LOG_LEVEL → event.logLevel ≠ f.logLevelToMatch →
      f.decide event = FilterResult.NEUTRAL) := by
  refine ⟨fun h => ?_, fun h1 h2 => ?_, fun h1 h2 => ?_⟩
  · simp [LogLevelMatchFilter.decide, h]
  · unfold LogLevelMatchFilter.decide
    rw [if_neg h1, if_pos h2.symm]
  · have h2' : ¬ f.logLevelToMatch = event.logLevel := fun h => h2 h.symm
    unfold LogLevelMatchFilter.decide
    rw [if_neg h1, if_neg h2']

/-- Claim C3 witness: a filter matching level 20000 with `acceptOnMatch`
accepts an event at level 20000. -/
theorem logLevelMatch_decide_witness :
    LogLevelMatchFilter.decide ⟨true, 20000⟩ (evAt 20000) = FilterResult.ACCEPT :=
  (logLevelMatch_decide_spec ⟨true, 20000⟩ (evAt 20000)).2.1 (by decide) rfl

/-- Claim C4: `LogLevelRangeFilter::decide` denies events strictly below a set
`logLevelMin` and strictly above a set `logLevelMax`; an in-range event (with
an unset bound imposing no constraint) gets `ACCEPT` if `acceptOnMatch` and
`NEUTRAL` otherwise, and in particular is never denied; the out-of-range
branches do not read `acceptOnMatch`. -/
theorem logLevelRange_decide_spec (f : LogLevelRangeFilter)
    (event : InternalLoggingEvent) :
    (f.logLevelMin ≠ NOT_SET_LOG_LEVEL → event.logLevel < f.logLevelMin →
      f.decide event = FilterResult.DENY) ∧
    ((f.logLevelMin = NOT_SET_LOG_LEVEL ∨ f.logLevelMin ≤ event.logLevel) →
      f.logLevelMax ≠ NOT_SET_LOG_LEVEL → f.logLevelMax < event.logLevel →
      f.decide event = FilterResult.DENY) ∧
    ((f.logLevelMin = NOT_SET_LOG_LEVEL ∨ f.logLevelMin ≤ event.logLevel) →
      (f.logLevelMax = NOT_SET_LOG_LEVEL ∨ event.logLevel ≤ f.logLevelMax) →
      f.decide event = if f.acceptOnMatch then FilterResult.ACCEPT
        else FilterResult.NEUTRAL) ∧
    ((f.logLevelMin = NOT_SET_LOG_LEVEL ∨ f.logLevelMin ≤ event.logLevel) →
      (f.logLevelMax = NOT_SET_LOG_LEVEL ∨ event.logLevel ≤ f.logLevelMax) →
      f.decide event ≠ FilterResult.DENY) := by
  have hlo : ∀ hmin : f.logLevelMin = NOT_SET_LOG_LEVEL ∨ f.logLevelMin ≤ event.logLevel,
      ¬ (f.logLevelMin ≠ NOT_SET_LOG_LEVEL ∧ event.logLevel < f.logLevelMin) := by
    rintro (h | h) ⟨ha, hb⟩
    · exact ha h
    · omega
  have hhi : ∀ hmax : f.logLevelMax = NOT_SET_LOG_LEVEL ∨ event.logLevel ≤ f.logLevelMax,
      ¬ (f.logLevelMax ≠ NOT_SET_LOG_LEVEL ∧ event.logLevel > f.logLevelMax) := by
    rintro (h | h) ⟨ha, hb⟩
    · exact ha h
    · omega
  refine ⟨fun h1 h2 => ?_, fun hmin h1 h2 => ?_, fun hmin hmax => ?_, fun hmin hmax => ?_⟩
  · unfold LogLevelRangeFilter.decide
    rw [if_pos ⟨h1, h2⟩]
  · unfold LogLevelRangeFilter.decide
    rw [if_neg (hlo hmin), if_pos ⟨h1, h2⟩]
  · unfold LogLevelRangeFilter.decide
    rw [if_neg (hlo hmin), if_neg (hhi hmax)]
  · unfold LogLevelRangeFilter.decide
    rw [if_neg (hlo hmin), if_neg (hhi hmax)]
    cases f.acceptOnMatch <;> simp

/-- Claim C4 witness: with bounds [30000, 40000], an event at level 20000 is
denied. -/
theorem logLevelRange_decide_witness :
    LogLevelRangeFilter.decide ⟨true, 30000, 40000⟩ (evAt 20000) =
      FilterResult.DENY :=
  (logLevelRange_decide_spec ⟨true, 30000, 40000⟩ (evAt 20000)).1 (by decide) (by decide)

/-- Claim C5: `StringMatchFilter::decide` is `NEUTRAL` when the configured
string or the event's message is empty; otherwise it is `NEUTRAL` when the
configured string is not a substring of the message, and `ACCEPT` if
`acceptOnMatch` (else `DENY`) when it is. -/
theorem stringMatch_decide_spec (f : StringMatchFilter)
    (event : InternalLoggingEvent) :
    ((f.stringToMatch = "" ∨ event.message = "") →
      f.decide event = FilterResult.NEUTRAL) ∧
    (f.stringToMatch ≠ "" → event.message ≠ "" →
      (¬ f.stringToMatch.data <:+: event.message.data →
        f.decide event = FilterResult.NEUTRAL) ∧
      (f.stringToMatch.data <:+: event.message.data →
        f.decide event = if f.acceptOnMatch then FilterResult.ACCEPT
          else FilterResult.DENY)) := by
  constructor
  · intro h
    have hg : (f.stringToMatch.isEmpty || event.message.isEmpty) = true := by
      rcases h with h | h <;> simp [String.isEmpty_iff, h]
    simp [StringMatchFilter.decide, hg]
  · intro h1 h2
    have e1 : f.stringToMatch.isEmpty = false := by
      rw [← Bool.not_eq_true, String.isEmpty_iff]
      exact h1
    have e2 : event.message.isEmpty = false := by
      rw [← Bool.not_eq_true, String.isEmpty_iff]
      exact h2
    have hg : (f.stringToMatch.isEmpty || event.message.isEmpty) = false := by
      rw [e1, e2]
      rfl
    constructor
    · intro hno
      have hc : containsSub f.stringToMatch.data event.message.data = false := by
        rw [← Bool.not_eq_true, containsSub_iff]
        exact hno
      simp [StringMatchFilter.decide, hg, hc]
    · intro hyes
      have hc : containsSub f.stringToMatch.data event.message.data = true :=
        (containsSub_iff _ _).mpr hyes
      simp [StringMatchFilter.decide, hg, hc]

/-- Claim C5 witness: the configured string `"log"` occurs in
`"info log message"`, so the filter accepts. -/
theorem stringMatch_decide_witness :
    StringMatchFilter.decide ⟨true, "log"⟩ (evAt 20000) = FilterResult.ACCEPT :=
  ((stringMatch_decide_spec ⟨true, "log"⟩ (evAt 20000)).2 (by decide) (by decide)).2
    ((containsSub_iff _ _).mp (by decide))

/-- Claim C6: `NDCMatchFilter::decide` is `NEUTRAL` when `neutralOnEmpty`
holds and `ndcToMatch` or the event's NDC string is empty; otherwise an exact
NDC match yields `ACCEPT` if `acceptOnMatch` (else `DENY`) and a mismatch
yields the opposite polarity; in particular with `neutralOnEmpty` false, an
empty `ndcToMatch`, an empty ambient NDC and the default `acceptOnMatch`, it
returns `ACCEPT`. -/
theorem ndcMatch_decide_spec (f : NDCMatchFilter) (event : InternalLoggingEvent) :
    (f.neutralOnEmpty = true → (f.ndcToMatch = "" ∨ event.ndc = "") →
      f.decide event = FilterResult.NEUTRAL) ∧
    (¬ (f.neutralOnEmpty = true ∧ (f.ndcToMatch = "" ∨ event.ndc = "")) →
      (event.ndc = f.ndcToMatch →
        f.decide event = if f.acceptOnMatch then FilterResult.ACCEPT
          else FilterResult.DENY) ∧
      (event.ndc ≠ f.ndcToMatch →
        f.decide event = if f.acceptOnMatch then FilterResult.DENY
          else FilterResult.ACCEPT)) ∧
    NDCMatchFilter.decide ⟨true, false, ""⟩ { event with ndc := "" } =
      FilterResult.ACCEPT := by
  refine ⟨fun hne h => ?_, fun hguard => ⟨fun heq => ?_, fun hne => ?_⟩, rfl⟩
  · have hg : (f.neutralOnEmpty && (f.ndcToMatch.isEmpty || event.ndc.isEmpty)) = true := by
      rcases h with h | h <;> simp [hne, String.isEmpty_iff, h]
    simp [NDCMatchFilter.decide, hg]
  · have hg : (f.neutralOnEmpty && (f.ndcToMatch.isEmpty || event.ndc.isEmpty)) = false := by
      rw [Bool.and_eq_false_iff]
      by_cases hb : f.neutralOnEmpty = true
      · right
        rw [Bool.or_eq_false_iff]
        have h : ¬ (_ ∨ _) := fun hor => hguard ⟨hb, hor⟩
        rw [not_or] at h
        refine ⟨?_, ?_⟩ <;> rw [← Bool.not_eq_true, String.isEmpty_iff]
        · exact h.1
        · exact h.2
      · exact Or.inl (Bool.eq_false_iff.mpr hb)
    unfold NDCMatchFilter.decide
    rw [if_neg (by simp [hg]), if_pos heq]
  · have hg : (f.neutralOnEmpty && (f.ndcToMatch.isEmpty || event.ndc.isEmpty)) = false := by
      rw [Bool.and_eq_false_iff]
      by_cases hb : f.neutralOnEmpty = true
      · right
        rw [Bool.or_eq_false_iff]
        have h : ¬ (_ ∨ _) := fun hor => hguard ⟨hb, hor⟩
        rw [not_or] at h
        refine ⟨?_, ?_⟩ <;> rw [← Bool.not_eq_true, String.isEmpty_iff]
        · exact h.1
        · exact h.2
      · exact Or.inl (Bool.eq_false_iff.mpr hb)
    unfold NDCMatchFilter.decide
    rw [if_neg (by simp [hg]), if_neg hne]

/-- Claim C6 witness: with `ndcToMatch = "ctx"` matching the event's NDC
string exactly, the filter accepts. -/
theorem ndcMatch_decide_witness :
    NDCMatchFilter.decide ⟨true, true, "ctx"⟩ evNdc = FilterResult.ACCEPT :=
  ((ndcMatch_decide_spec ⟨true, true, "ctx"⟩ evNdc).2.1 (by decide)).1 (by decide)

/-- Claim C7: `MDCMatchFilter::decide` is `NEUTRAL`, for every event, when
`neutralOnEmpty` holds and `mdcKeyToMatch` or `mdcValueToMatch` is empty;
otherwise it looks up the event's mapped context at `mdcKeyToMatch`, is
`NEUTRAL` when `neutralOnEmpty` holds and the looked-up value is empty, and
otherwise compares the value to `mdcValueToMatch`: `ACCEPT` if `acceptOnMatch`
(else `DENY`) on equality, and the opposite polarity on a mismatch. -/
theorem mdcMatch_decide_spec (f : MDCMatchFilter) (event : InternalLoggingEvent) :
    (f.neutralOnEmpty = true → (f.mdcKeyToMatch = "" ∨ f.mdcValueToMatch = "") →
      f.decide event = FilterResult.NEUTRAL) ∧
    (¬ (f.neutralOnEmpty = true ∧ (f.mdcKeyToMatch = "" ∨ f.mdcValueToMatch = "")) →
      (f.neutralOnEmpty = true → event.mdc f.mdcKeyToMatch = "" →
        f.decide event = FilterResult.NEUTRAL) ∧
      (¬ (f.neutralOnEmpty = true ∧ event.mdc f.mdcKeyToMatch = "") →
        (event.mdc f.mdcKeyToMatch = f.mdcValueToMatch →
          f.decide event = if f.acceptOnMatch then FilterResult.ACCEPT
            else FilterResult.DENY) ∧
        (event.mdc f.mdcKeyToMatch ≠ f.mdcValueToMatch →
          f.decide event = if f.acceptOnMatch then FilterResult.DENY
            else FilterResult.ACCEPT))) := by
  have guard1 : ∀ _ : ¬ (f.neutralOnEmpty = true ∧
        (f.mdcKeyToMatch = "" ∨ f.mdcValueToMatch = "")),
      (f.neutralOnEmpty && (f.mdcKeyToMatch.isEmpty || f.mdcValueToMatch.isEmpty)) = false := by
    intro hguard
    rw [Bool.and_eq_false_iff]
    by_cases hb : f.neutralOnEmpty = true
    · right
      rw [Bool.or_eq_false_iff]
      have h : ¬ (_ ∨ _) := fun hor => hguard ⟨hb, hor⟩
      rw [not_or] at h
      refine ⟨?_, ?_⟩ <;> rw [← Bool.not_eq_true, String.isEmpty_iff]
      · exact h.1
      · exact h.2
    · exact Or.inl (Bool.eq_false_iff.mpr hb)
  have guard2 : ∀ _ : ¬ (f.neutralOnEmpty = true ∧ event.mdc f.mdcKeyToMatch = ""),
      (f.neutralOnEmpty && (event.mdc f.mdcKeyToMatch).isEmpty) = false := by
    intro hguard
    rw [Bool.and_eq_false_iff]
    by_cases hb : f.neutralOnEmpty = true
    · right
      rw [← Bool.not_eq_true, String.isEmpty_iff]
      exact fun he => hguard ⟨hb, he⟩
    · exact Or.inl (Bool.eq_false_iff.mpr hb)
  refine ⟨fun hne h => ?_, fun hg1 => ⟨fun hne hemp => ?_, fun hg2 => ⟨fun heq => ?_, fun hne => ?_⟩⟩⟩
  · have hg : (f.neutralOnEmpty && (f.mdcKeyToMatch.isEmpty || f.mdcValueToMatch.isEmpty)) = true := by
      rcases h with h | h <;> simp [hne, String.isEmpty_iff, h]
    simp [MDCMatchFilter.decide, hg]
  · have hg : (f.neutralOnEmpty && (event.mdc f.mdcKeyToMatch).isEmpty) = true := by
      simp [hne, String.isEmpty_iff, hemp]
    simp [MDCMatchFilter.decide, guard1 hg1, hg]
  · unfold MDCMatchFilter.decide
    rw [if_neg (by simp [guard1 hg1]), if_neg (by simp [guard2 hg2]), if_pos heq]
  · unfold MDCMatchFilter.decide
    rw [if_neg (by simp [guard1 hg1]), if_neg (by simp [guard2 hg2]), if_neg hne]

/-- Claim C7 witness: with key `"key"` bound to `"val"` in the event's mapped
context and `mdcValueToMatch = "val"`, the filter accepts. -/
theorem mdcMatch_decide_witness :
    MDCMatchFilter.decide ⟨true, true, "key", "val"⟩ evMdc = FilterResult.ACCEPT :=
  (((mdcMatch_decide_spec ⟨true, true, "key", "val"⟩ evMdc).2 (by decide)).2
    (by decide)).1 (by decide)

/-- Claim C8 counterexample: with `mdcKeyToMatch = "key"` (non-empty),
`acceptOnMatch` true, `neutralOnEmpty` false, an event whose lookup at
`"key"` is empty, and the configured `mdcValueToMatch` also empty, `decide`
returns `ACCEPT`, not `DENY` as the claim states. -/
theorem mdcMatch_empty_value_cex :
    MDCMatchFilter.decide ⟨true, false, "key", ""⟩ (evAt 20000) =
      FilterResult.ACCEPT ∧
    ¬ MDCMatchFilter.decide ⟨true, false, "key", ""⟩ (evAt 20000) =
      FilterResult.DENY := by
  constructor <;> decide

/-- Claim C8 (amended): for `MDCMatchFilter` with a non-empty `mdcKeyToMatch`,
`acceptOnMatch` true, and an event whose lookup at that key is empty: with
`neutralOnEmpty` true `decide` returns `NEUTRAL` (for every
`mdcValueToMatch`); with `neutralOnEmpty` false it returns `DENY` for every
non-empty `mdcValueToMatch` (an empty `mdcValueToMatch` equals the empty
lookup and yields `ACCEPT`). -/
theorem mdcMatch_empty_lookup_spec (f : MDCMatchFilter)
    (event : InternalLoggingEvent) (hkey : f.mdcKeyToMatch ≠ "")
    (hacc : f.acceptOnMatch = true) (hlook : event.mdc f.mdcKeyToMatch = "") :
    (f.neutralOnEmpty = true → f.decide event = FilterResult.NEUTRAL) ∧
    (f.neutralOnEmpty = false → f.mdcValueToMatch ≠ "" →
      f.decide event = FilterResult.DENY) := by
  constructor
  · intro hne
    by_cases hv : f.mdcValueToMatch = ""
    · have hg : (f.neutralOnEmpty && (f.mdcKeyToMatch.isEmpty || f.mdcValueToMatch.isEmpty)) = true := by
        simp [hne, String.isEmpty_iff, hv]
      simp [MDCMatchFilter.decide, hg]
    · have hg1 : (f.neutralOnEmpty && (f.mdcKeyToMatch.isEmpty || f.mdcValueToMatch.isEmpty)) = false := by
        rw [Bool.and_eq_false_iff]
        right
        rw [Bool.or_eq_false_iff]
        constructor <;> rw [← Bool.not_eq_true, String.isEmpty_iff]
        · exact hkey
        · exact hv
      have hg2 : (f.neutralOnEmpty && (event.mdc f.mdcKeyToMatch).isEmpty) = true := by
        simp [hne, String.isEmpty_iff, hlook]
      simp [MDCMatchFilter.decide, hg1, hg2]
  · intro hne hv
    have hg1 : (f.neutralOnEmpty && (f.mdcKeyToMatch.isEmpty || f.mdcValueToMatch.isEmpty)) = false := by
      rw [hne]
      rfl
    have hg2 : (f.neutralOnEmpty && (event.mdc f.mdcKeyToMatch).isEmpty) = false := by
      rw [hne]
      rfl
    have hmm : ¬ event.mdc f.mdcKeyToMatch = f.mdcValueToMatch := by
      rw [hlook]
      exact fun h => hv h.symm
    unfold MDCMatchFilter.decide
    rw [if_neg (by simp [hg1]), if_neg (by simp [hg2]), if_neg hmm, hacc, if_pos rfl]

/-- Claim C8 witness: key `"key"`, value to match `"v"`, lookup empty,
`neutralOnEmpty` false: the filter denies. -/
theorem mdcMatch_empty_lookup_witness :
    MDCMatchFilter.decide ⟨true, false, "key", "v"⟩ (evAt 20000) =
      FilterResult.DENY :=
  (mdcMatch_empty_lookup_spec ⟨true, false, "key", "v"⟩ (evAt 20000)
    (by decide) rfl rfl).2 rfl (by decide)

/-- Claim C9: `appendFilter` links the new tail at the true end of the chain:
the resulting node sequence is the old sequence followed by the appended one
(so the new tail is last, existing nodes and their order are unchanged, and
repeated appends produce call order), and appending an absent (`none`) tail
leaves the chain unchanged (no crash). -/
theorem appendFilter_spec (c t : Filter) (k : FilterKind) :
    (c.appendFilter (some t)).toList = c.toList ++ t.toList ∧
    (c.appendFilter none).toList = c.toList ∧
    (c.appendFilter (some (.filterEnd k))).toList = c.toList ++ [k] := by
  induction c with
  | filterEnd k0 => simp [Filter.appendFilter, Filter.toList]
  | filterCons k0 n ih =>
    simp [Filter.appendFilter, Filter.toList, ih.1, ih.2.1, ih.2.2]

/-- Claim C10: with `neutralOnEmpty` false, neither `NDCMatchFilter::decide`
nor `MDCMatchFilter::decide` ever returns `NEUTRAL`: every event gets either
`ACCEPT` or `DENY`. -/
theorem neutralOnEmpty_false_no_neutral (fn : NDCMatchFilter)
    (fm : MDCMatchFilter) (event : InternalLoggingEvent)
    (hn : fn.neutralOnEmpty = false) (hm : fm.neutralOnEmpty = false) :
    fn.decide event ≠ FilterResult.NEUTRAL ∧
    fm.decide event ≠ FilterResult.NEUTRAL := by
  constructor
  · have hg : (fn.neutralOnEmpty && (fn.ndcToMatch.isEmpty || event.ndc.isEmpty)) = false := by
      rw [hn]
      rfl
    unfold NDCMatchFilter.decide
    rw [if_neg (by simp [hg])]
    by_cases he : event.ndc = fn.ndcToMatch
    · rw [if_pos he]
      cases fn.acceptOnMatch <;> simp
    · rw [if_neg he]
      cases fn.acceptOnMatch <;> simp
  · have hg1 : (fm.neutralOnEmpty && (fm.mdcKeyToMatch.isEmpty || fm.mdcValueToMatch.isEmpty)) = false := by
      rw [hm]
      rfl
    have hg2 : (fm.neutralOnEmpty && (event.mdc fm.mdcKeyToMatch).isEmpty) = false := by
      rw [hm]
      rfl
    unfold MDCMatchFilter.decide
    rw [if_neg (by simp [hg1]), if_neg (by simp [hg2])]
    by_cases he : event.mdc fm.mdcKeyToMatch = fm.mdcValueToMatch
    · rw [if_pos he]
      cases fm.acceptOnMatch <;> simp
    · rw [if_neg he]
      cases fm.acceptOnMatch <;> simp

/-- Claim C10 witness: concrete NDC and MDC filters with `neutralOnEmpty`
false decide non-neutrally on a concrete event. -/
theorem neutralOnEmpty_false_no_neutral_witness :
    NDCMatchFilter.decide ⟨true, false, ""⟩ (evAt 20000) ≠ FilterResult.NEUTRAL ∧
    MDCMatchFilter.decide ⟨true, false, "", ""⟩ (evAt 20000) ≠ FilterResult.NEUTRAL :=
  neutralOnEmpty_false_no_neutral ⟨true, false, ""⟩ ⟨true, false, "", ""⟩
    (evAt 20000) rfl rfl

end Log4cplus
